import Mathlib

/-!
Verification of the ScrapCo backend dispatch/vendor-assignment logic.

The development shallowly embeds the three source files:
* `src/routes/vendor.js` — the `POST /accept` vendor callback (a conditional
  supabase update keyed on `id` and `status = 'REQUESTED'`), plus a second
  copy of the pickups router that wires `dispatcher.dispatchPickup` after
  creation and exposes `POST /accepted`;
* `src/unnamed/part_000` — `backend/index.js` (route mounting only);
* `src/unnamed/part_001` — `backend/routes/pickups.js` (validation + creation
  via the `create_pickup` RPC, without any dispatch call).

The supabase store is embedded as a list of pickup rows; the conditional
`update ... eq('id', pid).eq('status', 'REQUESTED')` is embedded as a map
over the rows guarded by the same predicate, with the list of matched rows
returned to model `.select(...).maybeSingle()`.  Components that are only
referenced from the sources (`../vendor/security`, `../services/dispatcher`)
are modelled from the spec and marked as such in their doc comments.
-/

namespace ScrapCo

/-- Pickup status enum as used by the supabase `pickups.status` column. -/
inductive Status where
  | REQUESTED
  | OFFERED
  | ACCEPTED
  | COMPLETED
  | CANCELLED
deriving DecidableEq, Repr

/-- A pickup row; only the columns the dispatch engine reads or writes are
embedded (`id`, `status`, `assigned_vendor_ref`, `assignment_expires_at`,
`cancelled_at`). -/
structure Pickup where
  id : String
  status : Status
  assignedVendorRef : Option String
  assignmentExpiresAt : Option String
  cancelledAt : Option String
deriving DecidableEq, Repr

/-- The pickups table. -/
abbrev Store := List Pickup

/-- Result of `verifyVendorSignature` (an `{ ok, error }` object). -/
structure SigResult where
  ok : Bool
  error : Option String
deriving DecidableEq, Repr

/-- The parsed JSON body of a vendor `POST /accept` / `POST /accepted` call:
`{ pickupId, assignedVendorRef, assignmentExpiresAt }`, each field possibly
absent.  An absent request body (`req.body || {}`) is the all-`none` record. -/
structure AcceptBody where
  pickupId : Option String
  assignedVendorRef : Option String
  assignmentExpiresAt : Option String
deriving DecidableEq, Repr

/-- A vendor-boundary HTTP response: status code plus the JSON payload
`{ success, error?, pickup? }`. -/
structure VendorResponse where
  status : Nat
  success : Bool
  error : Option String
  pickup : Option Pickup
deriving DecidableEq, Repr

/-- JavaScript falsiness of a possibly-absent string (`!x` for
`undefined`, `null` or `""`). -/
def isFalsyStr : Option String → Bool
  | none => true
  | some s => s == ""

/-- JavaScript `x || null` on a possibly-absent string. -/
def orNull : Option String → Option String
  | none => none
  | some s => if s == "" then none else some s

/-- The row transformation of the `/accept` update payload:
`{ status: 'ACCEPTED', assigned_vendor_ref: ..., assignment_expires_at: ... }`. -/
def acceptRow (vr er : Option String) (p : Pickup) : Pickup :=
  { p with status := Status.ACCEPTED, assignedVendorRef := vr, assignmentExpiresAt := er }

/-- The `/accept` match predicate `.eq('id', pickupId).eq('status', 'REQUESTED')`;
also the guard of the spec-modelled `REQUESTED → OFFERED` dispatch transition. -/
def idReqCond (pid : String) (q : Pickup) : Bool :=
  q.id == pid && q.status == Status.REQUESTED

/-- Apply a row update `f` to the rows satisfying `cond`, leave the rest. -/
def updateFn (cond : Pickup → Bool) (f : Pickup → Pickup) (p : Pickup) : Pickup :=
  if cond p then f p else p

/-- A conditional (compare-and-set) update against the store: returns the
updated table together with the list of updated rows (what
`.update(...).eq(...)...select(...)` hands back). -/
def condUpdate (store : Store) (cond : Pickup → Bool) (f : Pickup → Pickup) :
    Store × List Pickup :=
  (store.map (updateFn cond f), (store.filter cond).map f)

/-- Supabase `.maybeSingle()`: `none` for zero rows, the row for one, an
error for several. -/
def maybeSingle : List Pickup → Except String (Option Pickup)
  | [] => Except.ok none
  | [p] => Except.ok (some p)
  | _ => Except.error "JSON object requested, multiple (or no) rows returned"

/-- Read a pickup row by id (first row whose `id` matches). -/
def getRow : Store → String → Option Pickup
  | [], _ => none
  | p :: rest, pid => if p.id == pid then some p else getRow rest pid

/-- The store holds at most one row per pickup id (the `pickups.id` primary
key). -/
def uniqueIds (s : Store) : Prop := (s.map (fun p => p.id)).Nodup

instance (s : Store) : Decidable (uniqueIds s) := by
  unfold uniqueIds; infer_instance

/-- Mapping of the conditional update's `maybeSingle` result to the
`/accept` response: supabase `error` → 400, zero rows → 409, one row → 200
with the updated record. -/
def acceptRespOf : Except String (Option Pickup) → VendorResponse
  | Except.error m => { status := 400, success := false, error := some m, pickup := none }
  | Except.ok none =>
      { status := 409, success := false,
        error := some "Pickup not found or not in REQUESTED status", pickup := none }
  | Except.ok (some p) => { status := 200, success := true, error := none, pickup := some p }

/-- The `POST /api/vendor/accept` handler of `src/routes/vendor.js`:
signature check, `pickupId` presence check, then the single conditional
update setting `ACCEPTED` guarded by `status = 'REQUESTED'`, with the
caller-supplied vendor ref and expiry written (`x || null`).  The signature
verification outcome is the `sig` argument. -/
def acceptHandler (sig : SigResult) (body : AcceptBody) (store : Store) :
    VendorResponse × Store :=
  if sig.ok = false then
    ({ status := 401, success := false, error := sig.error, pickup := none }, store)
  else if isFalsyStr body.pickupId then
    ({ status := 400, success := false, error := some "pickupId is required", pickup := none },
     store)
  else
    let res := condUpdate store (idReqCond (body.pickupId.getD ""))
      (acceptRow (orNull body.assignedVendorRef) (orNull body.assignmentExpiresAt))
    (acceptRespOf (maybeSingle res.2), res.1)

/-- Modelled from the spec: `verifyVendorSignature` lives in
`../vendor/security`, which is not among the source files.  Spec §4.1: an
HMAC is computed over `timestamp ++ "." ++ rawBody` with a server-held
shared secret (the HMAC itself is abstracted as the `mac` argument), and
the request is rejected when the signature header is absent, the timestamp
header is absent or unparsable (both embedded as `none`), the timestamp
falls outside the freshness window around `now`, or the digest mismatches. -/
def verifyVendorSignature (mac : String → String → String) (secret : String)
    (now : Int) (window : Nat) (sigHeader : Option String) (tsHeader : Option Int)
    (rawBody : String) : SigResult :=
  match sigHeader, tsHeader with
  | none, _ => { ok := false, error := some "missing signature" }
  | some _, none => { ok := false, error := some "missing or invalid timestamp" }
  | some s, some t =>
    if window < (now - t).natAbs then
      { ok := false, error := some "stale timestamp" }
    else if s == mac secret (toString t ++ "." ++ rawBody) then
      { ok := true, error := none }
    else
      { ok := false, error := some "invalid signature" }

/-- Modelled from the spec: the dispatcher (`../services/dispatcher`) is not
among the source files.  Spec §4.2, `dispatchPickup`: the conditional
transition `REQUESTED → OFFERED` scoped to (pickupId, expected status
`REQUESTED`), setting `assignedVendorRef` and `assignmentExpiresAt`.  The
returned flag records whether the conditional write matched. -/
def offerTransition (store : Store) (pid vendorRef expiresAt : String) : Store × Bool :=
  let res := condUpdate store (idReqCond pid)
    (fun p => { p with status := Status.OFFERED, assignedVendorRef := some vendorRef,
                       assignmentExpiresAt := some expiresAt })
  (res.1, !res.2.isEmpty)

/-- Guard of the spec-modelled rejection/expiry transition: the pickup is
still `OFFERED` to this very vendor. -/
def rejectCond (pid vendorRef : String) (q : Pickup) : Bool :=
  q.id == pid && (q.status == Status.OFFERED && q.assignedVendorRef == some vendorRef)

/-- Clearing the assignment: status back to `REQUESTED`, vendor fields nulled. -/
def clearAssignment (p : Pickup) : Pickup :=
  { p with status := Status.REQUESTED, assignedVendorRef := none, assignmentExpiresAt := none }

/-- Modelled from the spec: `handleVendorRejection` of the missing
dispatcher (spec §4.2).  If the pickup is `OFFERED` and its
`assignedVendorRef` equals the supplied `vendorRef`, the assignment is
cleared; otherwise the call is accepted but ignored.  The Bool is `true`
when the assignment was cleared and `false` for the "ignored" indicator.
(A successful rejection also re-triggers `dispatchPickup`; that re-dispatch
is the `offerTransition` operation and is sequenced separately.) -/
def handleVendorRejection (store : Store) (pid vendorRef : String) : Store × Bool :=
  let res := condUpdate store (rejectCond pid vendorRef) clearAssignment
  (res.1, !res.2.isEmpty)

/-- Modelled from the spec: expiry handling of the missing dispatcher (spec
§4.2): a firing expiry check for a pickup still `OFFERED` to the same
vendor "is treated identically to a rejection from that vendor". -/
def expiryFire (store : Store) (pid vendorRef : String) : Store × Bool :=
  handleVendorRejection store pid vendorRef

/-- Guard of the spec-modelled `confirmVendorAcceptance`: status `OFFERED`
and `assignedVendorRef` equal to the supplied vendor ref (the spec's
canonical, vendor-identity-matching variant). -/
def confirmCond (pid : String) (vendorRef : Option String) (q : Pickup) : Bool :=
  q.id == pid && (q.status == Status.OFFERED && q.assignedVendorRef == vendorRef)

/-- Modelled from the spec: `confirmVendorAcceptance(pickupId, vendorRef)`
of the missing dispatcher (spec §4.2): a single conditional update setting
status `ACCEPTED` only if the status is `OFFERED` and `assignedVendorRef`
equals the supplied vendor ref; returns the updated record on success and
the sentinel `none` when the conditional update affected zero rows, never
throwing on that path (embedded as a total function). -/
def confirmVendorAcceptance (store : Store) (pid : String) (vendorRef : Option String) :
    Store × Option Pickup :=
  let res := condUpdate store (confirmCond pid vendorRef)
    (fun p => { p with status := Status.ACCEPTED })
  (res.1, res.2.head?)

/-- Mapping of the `confirmVendorAcceptance` result to the `/accepted`
response: a falsy result → 409, otherwise 200 with the record. -/
def acceptedRespOf : Option Pickup → VendorResponse
  | none =>
      { status := 409, success := false, error := some "Could not confirm acceptance",
        pickup := none }
  | some p => { status := 200, success := true, error := none, pickup := some p }

/-- The `POST /api/pickups/accepted` handler of `src/routes/vendor.js`
(second document, lines 243-261): signature check, `pickupId` presence
check, then `dispatcher.confirmVendorAcceptance`; a falsy result maps to
HTTP 409. -/
def acceptedHandler (sig : SigResult) (body : AcceptBody) (store : Store) :
    VendorResponse × Store :=
  if sig.ok = false then
    ({ status := 401, success := false, error := sig.error, pickup := none }, store)
  else if isFalsyStr body.pickupId then
    ({ status := 400, success := false, error := some "pickupId is required", pickup := none },
     store)
  else
    let res := confirmVendorAcceptance store (body.pickupId.getD "") body.assignedVendorRef
    (acceptedRespOf res.2, res.1)

/-- The externally triggered transitions that can race on a pickup: the two
vendor accept boundaries, the spec-modelled rejection, expiry and offer
transitions. -/
inductive EngineOp where
  | acceptCall (sig : SigResult) (b : AcceptBody)
  | acceptedCall (sig : SigResult) (b : AcceptBody)
  | rejectCall (pid vendorRef : String)
  | expireCall (pid vendorRef : String)
  | offerCall (pid vendorRef expiresAt : String)

/-- Effect of one engine operation on the store. -/
def applyOp (store : Store) : EngineOp → Store
  | EngineOp.acceptCall sig b => (acceptHandler sig b store).2
  | EngineOp.acceptedCall sig b => (acceptedHandler sig b store).2
  | EngineOp.rejectCall pid vr => (handleVendorRejection store pid vr).1
  | EngineOp.expireCall pid vr => (expiryFire store pid vr).1
  | EngineOp.offerCall pid vr e => (offerTransition store pid vr e).1

/-- Effect of a sequence of engine operations. -/
def applyOps (store : Store) (ops : List EngineOp) : Store :=
  ops.foldl applyOp store

/-- JavaScript values as far as `validatePickupBody` inspects them:
absent/`null`/`undefined` collapse to `jnull` (they are the values loosely
equal to `null`), strings, numbers (embedded as `Int`; the validator only
asks `typeof x === 'number'` and never computes), booleans and arrays. -/
inductive JsVal where
  | jnull
  | jstr (s : String)
  | jnum (n : Int)
  | jbool (b : Bool)
  | jarr (l : List JsVal)

/-- JavaScript truthiness. -/
def truthy : JsVal → Bool
  | JsVal.jnull => false
  | JsVal.jstr s => !(s == "")
  | JsVal.jnum n => !(n == 0)
  | JsVal.jbool b => b
  | JsVal.jarr _ => true

mutual
/-- JavaScript `String(x)` for the embedded values. -/
def jsToString : JsVal → String
  | JsVal.jnull => "null"
  | JsVal.jstr s => s
  | JsVal.jnum n => toString n
  | JsVal.jbool b => if b then "true" else "false"
  | JsVal.jarr l => String.intercalate "," (jsListToString l)

/-- `String(x)` element-wise (JavaScript array-to-string joins with `,`). -/
def jsListToString : List JsVal → List String
  | [] => []
  | v :: r => jsToString v :: jsListToString r
end

/-- `Array.isArray`. -/
def isArrayV : JsVal → Bool
  | JsVal.jarr _ => true
  | _ => false

/-- `.length` of an array value (0 otherwise; only used behind `isArrayV`). -/
def arrLen : JsVal → Nat
  | JsVal.jarr l => l.length
  | _ => 0

/-- `typeof x === 'number'`. -/
def isNumber : JsVal → Bool
  | JsVal.jnum _ => true
  | _ => false

/-- JavaScript loose `x == null` (true exactly for `null`/`undefined`,
both embedded as `jnull`). -/
def isJNull : JsVal → Bool
  | JsVal.jnull => true
  | _ => false

/-- Whitespace as stripped by JavaScript `String.prototype.trim` (the
ASCII part; the unicode whitespace classes are not modelled). -/
def isWsChar (c : Char) : Bool :=
  c == ' ' || c == '\t' || c == '\n' || c == '\r' || c == '\x0b' || c == '\x0c'

/-- Drop leading whitespace characters. -/
def dropWs : List Char → List Char
  | [] => []
  | c :: r => if isWsChar c then dropWs r else c :: r

/-- JavaScript `s.trim()`: strip whitespace from both ends. -/
def jsTrim (s : String) : String :=
  String.mk ((dropWs ((dropWs s.data).reverse)).reverse)

/-- The fields of a pickup-creation request body that `validatePickupBody`
reads.  A missing request body is `none` at the call sites. -/
structure CreateBody where
  items : JsVal
  address : JsVal
  timeSlot : JsVal
  latitude : JsVal
  longitude : JsVal

/-- `validatePickupBody` of `backend/routes/pickups.js`: returns an error
message string if invalid, or `none` if valid. -/
def validatePickupBody : Option CreateBody → Option String
  | none => some "Request body is missing."
  | some b =>
    if !(isArrayV b.items) || arrLen b.items == 0 then
      some "items is required (array of \x7b scrapTypeId, estimatedQuantity \x7d)."
    else if !(truthy b.address) || jsTrim (jsToString b.address) == "" then
      some "address is required."
    else if !(truthy b.timeSlot) || jsTrim (jsToString b.timeSlot) == "" then
      some "timeSlot is required."
    else if !(isJNull b.latitude) && !(isNumber b.latitude) then
      some "latitude must be a number."
    else if !(isJNull b.longitude) && !(isNumber b.longitude) then
      some "longitude must be a number."
    else
      none

/-- Outcome of the `create_pickup` RPC (the store side of creation):
either the returned `pickupId` (possibly a null `data`) or an error. -/
inductive RpcOutcome where
  | ok (pickupId : Option String)
  | err (msg : String)
deriving DecidableEq, Repr

/-- A creation-boundary HTTP response: status code plus
`{ success, error?, payload? }` where the payload is the created pickup id
(`pickup: data` in `part_001`, `pickupId` in the `vendor.js` variant). -/
structure CreateResponse where
  status : Nat
  success : Bool
  error : Option String
  payload : Option String
deriving DecidableEq, Repr

/-- What a creation handler did: the response, whether the `create_pickup`
RPC (the only store operation on this path) was reached, and the arguments
of every `dispatcher.dispatchPickup` call it made. -/
structure CreateResult where
  resp : CreateResponse
  rpcCalled : Bool
  dispatchCalls : List String
deriving DecidableEq, Repr

/-- Case-insensitive substring test, embedding `/pat/i.test(msg)` for the
literal patterns of the handler. -/
def containsCI (s pat : String) : Bool :=
  !((s.toLower.splitOn pat.toLower).length == 1)

/-- The handler's test for a missing `create_pickup` RPC. -/
def missingRpcMsg (m : String) : Bool :=
  containsCI m "function create_pickup" || containsCI m "schema cache"

/-- `error.message || 'Could not create pickup'`. -/
def rpcErrMsg (m : String) : String :=
  if m == "" then "Could not create pickup" else m

/-- The `POST /api/pickups` handler of `src/unnamed/part_001`
(`backend/routes/pickups.js`): validation, then bearer-token check (`jwt`
is the token `getBearerToken` extracted, `none` when absent), then client
construction (`clientOk = false` embeds `createAnonClientWithJwt`
throwing), then the `create_pickup` RPC whose outcome is `rpc`.  This
variant never calls the dispatcher. -/
def createHandlerP (body : Option CreateBody) (jwt : Option String) (clientOk : Bool)
    (rpc : RpcOutcome) : CreateResult :=
  match validatePickupBody body with
  | some e => ⟨⟨400, false, some e, none⟩, false, []⟩
  | none =>
    match jwt with
    | none => ⟨⟨401, false, some "Missing Authorization Bearer token", none⟩, false, []⟩
    | some _ =>
      if clientOk = false then
        ⟨⟨500, false, some "Supabase is not configured on server", none⟩, false, []⟩
      else
        match rpc with
        | RpcOutcome.err m =>
          if missingRpcMsg (rpcErrMsg m) then
            ⟨⟨501, false,
              some "Missing RPC create_pickup. Apply the Supabase SQL migration for RLS + RPC, then retry.",
              none⟩, true, []⟩
          else
            ⟨⟨400, false, some (rpcErrMsg m), none⟩, true, []⟩
        | RpcOutcome.ok d => ⟨⟨201, true, none, d⟩, true, []⟩

/-- The `POST /api/pickups` handler of the pickups-router variant embedded
in `src/routes/vendor.js` (lines 105-169): identical to `createHandlerP` up
to the RPC, after which it kicks off `dispatcher.dispatchPickup(pickupId)`
in the background when `pickupId` is truthy — the call is not awaited, so
the 201 response is computed without any dispatch outcome as input — and
responds `{ success: true, pickupId }`. -/
def createHandlerV (body : Option CreateBody) (jwt : Option String) (clientOk : Bool)
    (rpc : RpcOutcome) : CreateResult :=
  match validatePickupBody body with
  | some e => ⟨⟨400, false, some e, none⟩, false, []⟩
  | none =>
    match jwt with
    | none => ⟨⟨401, false, some "Missing Authorization Bearer token", none⟩, false, []⟩
    | some _ =>
      if clientOk = false then
        ⟨⟨500, false, some "Supabase is not configured on server", none⟩, false, []⟩
      else
        match rpc with
        | RpcOutcome.err m =>
          if missingRpcMsg (rpcErrMsg m) then
            ⟨⟨501, false,
              some "Missing RPC create_pickup. Apply the Supabase SQL migration for RLS + RPC, then retry.",
              none⟩, true, []⟩
          else
            ⟨⟨400, false, some (rpcErrMsg m), none⟩, true, []⟩
        | RpcOutcome.ok d =>
          let dcalls := match d with
            | some pid => if pid == "" then [] else [pid]
            | none => []
          ⟨⟨201, true, none, d⟩, true, dcalls⟩

/-- A row transformation that preserves the id column and leaves `ACCEPTED`
rows untouched.  Every engine operation acts on the store as a map by such
a transformation. -/
def Tame (g : Pickup → Pickup) : Prop :=
  (∀ p, (g p).id = p.id) ∧ (∀ p, p.status = Status.ACCEPTED → g p = p)

/-- The 409 conflict response of the `/accept` boundary. -/
def conflict409 : VendorResponse :=
  { status := 409, success := false,
    error := some "Pickup not found or not in REQUESTED status", pickup := none }

/-- The 409 conflict response of the `/accepted` boundary. -/
def confirmConflict409 : VendorResponse :=
  { status := 409, success := false, error := some "Could not confirm acceptance",
    pickup := none }

/-- The spec's data-model invariant on a pickup row: `assignedVendorRef`
and `assignmentExpiresAt` are both null or both set, except in
`ACCEPTED`/terminal states where the expiry may be cleared but the vendor
ref is retained. -/
def invariantOK (p : Pickup) : Prop :=
  (p.assignedVendorRef = none ∧ p.assignmentExpiresAt = none) ∨
  (p.assignedVendorRef ≠ none ∧ p.assignmentExpiresAt ≠ none) ∨
  ((p.status = Status.ACCEPTED ∨ p.status = Status.COMPLETED ∨
      p.status = Status.CANCELLED) ∧ p.assignedVendorRef ≠ none)

instance (p : Pickup) : Decidable (invariantOK p) := by
  unfold invariantOK
  infer_instance

/-! ### Concrete fixtures used by witnesses and counterexamples -/

/-- A passing signature-verification result. -/
def okSig : SigResult := { ok := true, error := none }

/-- A failing signature-verification result. -/
def badSig : SigResult := { ok := false, error := some "invalid signature" }

/-- A freshly requested pickup with no assignment. -/
def pReq0 : Pickup :=
  { id := "p1", status := Status.REQUESTED, assignedVendorRef := none,
    assignmentExpiresAt := none, cancelledAt := none }

/-- A `REQUESTED` pickup currently assigned to vendor A. -/
def pReqA : Pickup :=
  { id := "p1", status := Status.REQUESTED, assignedVendorRef := some "vendor-A",
    assignmentExpiresAt := some "2025-06-01T10:00:00Z", cancelledAt := none }

/-- A cancelled pickup. -/
def pCancelled : Pickup :=
  { id := "p1", status := Status.CANCELLED, assignedVendorRef := none,
    assignmentExpiresAt := none, cancelledAt := some "2025-05-01T00:00:00Z" }

/-- An accept body from vendor B. -/
def bodyVendorB : AcceptBody :=
  { pickupId := some "p1", assignedVendorRef := some "vendor-B",
    assignmentExpiresAt := some "2025-06-01T11:00:00Z" }

/-- An accept body carrying no vendor reference at all. -/
def bodyNoVendor : AcceptBody :=
  { pickupId := some "p1", assignedVendorRef := none,
    assignmentExpiresAt := some "2025-06-01T12:00:00Z" }

/-- An accept body from vendor A. -/
def bodyVendorA : AcceptBody :=
  { pickupId := some "p1", assignedVendorRef := some "vendor-A",
    assignmentExpiresAt := some "2025-06-01T10:30:00Z" }

/-- The `ACCEPTED` row produced by `acceptHandler okSig bodyVendorA [pReq0]`. -/
def pAccA : Pickup :=
  { id := "p1", status := Status.ACCEPTED, assignedVendorRef := some "vendor-A",
    assignmentExpiresAt := some "2025-06-01T10:30:00Z", cancelledAt := none }

/-- A well-formed pickup-creation body. -/
def goodBody : CreateBody :=
  { items := JsVal.jarr [JsVal.jnum 1], address := JsVal.jstr "12 Main Street",
    timeSlot := JsVal.jstr "9am-12pm", latitude := JsVal.jnull, longitude := JsVal.jnull }

/-- A creation body with an empty items array. -/
def badItemsBody : CreateBody :=
  { items := JsVal.jarr [], address := JsVal.jstr "12 Main Street",
    timeSlot := JsVal.jstr "9am-12pm", latitude := JsVal.jnull, longitude := JsVal.jnull }

/-! ### Store lemmas -/

theorem map_updateFn_eq_self (l : Store) (cond : Pickup → Bool) (f : Pickup → Pickup)
    (h : ∀ p ∈ l, cond p = false) : l.map (updateFn cond f) = l := by
  induction l with
  | nil => rfl
  | cons a t ih =>
    have ha := h a (List.mem_cons_self a t)
    simp [updateFn, ha, ih (fun p hp => h p (List.mem_cons_of_mem a hp))]

theorem condUpdate_no_match (l : Store) (cond : Pickup → Bool) (f : Pickup → Pickup)
    (h : ∀ p ∈ l, cond p = false) : condUpdate l cond f = (l, []) := by
  have h2 : l.filter cond = [] :=
    List.filter_eq_nil_iff.mpr (fun a ha => by simp [h a ha])
  simp [condUpdate, map_updateFn_eq_self l cond f h, h2]

theorem uniqueIds_cons {a : Pickup} {t : Store} (h : uniqueIds (a :: t)) :
    a.id ∉ t.map (fun p => p.id) ∧ uniqueIds t := by
  unfold uniqueIds at h ⊢
  simpa [List.nodup_cons] using h

theorem getRow_map (l : Store) (g : Pickup → Pickup) (hg : ∀ p, (g p).id = p.id)
    (pid : String) : getRow (l.map g) pid = (getRow l pid).map g := by
  induction l with
  | nil => rfl
  | cons a t ih =>
    simp only [List.map_cons, getRow, hg a]
    by_cases hid : (a.id == pid) = true
    · simp [hid]
    · simp [hid, ih]

theorem getRow_eq_some {l : Store} {pid : String} {p : Pickup} (hu : uniqueIds l)
    (hp : p ∈ l) (hid : p.id = pid) : getRow l pid = some p := by
  induction l with
  | nil => cases hp
  | cons a t ih =>
    rcases uniqueIds_cons hu with ⟨hna, hut⟩
    rcases List.mem_cons.mp hp with rfl | hpt
    · simp [getRow, hid]
    · have ha : (a.id == pid) = false := by
        rw [beq_eq_false_iff_ne]
        intro hcontra
        exact hna (by
          rw [hcontra, ← hid]
          exact List.mem_map_of_mem (fun q => q.id) hpt)
      simp [getRow, ha, ih hut hpt]

theorem getRow_mem {l : Store} {pid : String} {p : Pickup}
    (h : getRow l pid = some p) : p ∈ l ∧ p.id = pid := by
  induction l with
  | nil => cases h
  | cons a t ih =>
    by_cases hid : (a.id == pid) = true
    · have : a = p := by simpa [getRow, hid] using h
      subst this
      exact ⟨List.mem_cons_self a t, by simpa using hid⟩
    · have h2 : getRow t pid = some p := by simpa [getRow, hid] using h
      rcases ih h2 with ⟨h3, h4⟩
      exact ⟨List.mem_cons_of_mem a h3, h4⟩

theorem getRow_unique {l : Store} {pid : String} {p q : Pickup} (hu : uniqueIds l)
    (h : getRow l pid = some p) (hq : q ∈ l) (hqid : q.id = pid) : q = p := by
  have h2 := getRow_eq_some hu hq hqid
  rw [h2] at h
  exact Option.some.inj h

theorem getRow_none {l : Store} {pid : String} (h : getRow l pid = none) :
    ∀ q ∈ l, (q.id == pid) = false := by
  induction l with
  | nil => intro q hq; cases hq
  | cons a t ih =>
    by_cases hid : (a.id == pid) = true
    · simp [getRow, hid] at h
    · have h2 : getRow t pid = none := by simpa [getRow, hid] using h
      intro q hq
      rcases List.mem_cons.mp hq with rfl | hqt
      · simpa using hid
      · exact ih h2 q hqt

theorem filter_by_id_none {l : Store} {pid : String} (P : Pickup → Bool)
    (h : getRow l pid = none) : l.filter (fun q => q.id == pid && P q) = [] := by
  apply List.filter_eq_nil_iff.mpr
  intro q hq
  simp [getRow_none h q hq]

theorem filter_by_id_some {l : Store} {pid : String} {p : Pickup} (P : Pickup → Bool)
    (hu : uniqueIds l) (h : getRow l pid = some p) :
    l.filter (fun q => q.id == pid && P q) = if P p then [p] else [] := by
  induction l with
  | nil => cases h
  | cons a t ih =>
    rcases uniqueIds_cons hu with ⟨hna, hut⟩
    by_cases hid : (a.id == pid) = true
    · have hap : a = p := by simpa [getRow, hid] using h
      subst hap
      have hft : t.filter (fun q => q.id == pid && P q) = [] := by
        apply List.filter_eq_nil_iff.mpr
        intro q hqt
        have hqid : (q.id == pid) = false := by
          rw [beq_eq_false_iff_ne]
          intro hcontra
          exact hna (by
            rw [← (by simpa using hid : a.id = pid)] at hcontra
            rw [← hcontra]
            exact List.mem_map_of_mem (fun r => r.id) hqt)
        simp [hqid]
      by_cases hP : P a = true
      · simp [List.filter_cons, hid, hP, hft]
      · simp [List.filter_cons, hid, hP, hft]
    · have h2 : getRow t pid = some p := by simpa [getRow, hid] using h
      simpa [List.filter_cons, hid] using ih hut h2

theorem map_ids (l : Store) (g : Pickup → Pickup) (hg : ∀ p, (g p).id = p.id) :
    (l.map g).map (fun p => p.id) = l.map (fun p => p.id) := by
  induction l with
  | nil => rfl
  | cons a t ih => simp [hg a, ih]

theorem uniqueIds_map (l : Store) (g : Pickup → Pickup) (hg : ∀ p, (g p).id = p.id) :
    uniqueIds (l.map g) ↔ uniqueIds l := by
  unfold uniqueIds
  rw [map_ids l g hg]

/-! ### Tameness: every engine operation is a row-wise store map that
preserves ids and fixes `ACCEPTED` rows -/

theorem tame_id : Tame (fun p => p) :=
  ⟨fun _ => rfl, fun _ _ => rfl⟩

theorem tame_comp {g1 g2 : Pickup → Pickup} (h1 : Tame g1) (h2 : Tame g2) :
    Tame (fun p => g2 (g1 p)) := by
  constructor
  · intro p
    show (g2 (g1 p)).id = p.id
    rw [h2.1, h1.1]
  · intro p hp
    show g2 (g1 p) = p
    rw [h1.2 p hp, h2.2 p hp]

theorem tame_updateFn (cond : Pickup → Bool) (f : Pickup → Pickup)
    (hf : ∀ p, (f p).id = p.id) (hc : ∀ p, p.status = Status.ACCEPTED → cond p = false) :
    Tame (updateFn cond f) := by
  constructor
  · intro p
    unfold updateFn
    by_cases h : cond p = true
    · simp [h, hf p]
    · simp [h]
  · intro p hp
    unfold updateFn
    simp [hc p hp]

theorem idReqCond_accepted (pid : String) (p : Pickup)
    (hp : p.status = Status.ACCEPTED) : idReqCond pid p = false := by
  simp [idReqCond, hp]

theorem rejectCond_accepted (pid vr : String) (p : Pickup)
    (hp : p.status = Status.ACCEPTED) : rejectCond pid vr p = false := by
  simp [rejectCond, hp]

theorem confirmCond_accepted (pid : String) (vr : Option String) (p : Pickup)
    (hp : p.status = Status.ACCEPTED) : confirmCond pid vr p = false := by
  simp [confirmCond, hp]

theorem acceptHandler_snd (sig : SigResult) (b : AcceptBody) (store : Store) :
    (acceptHandler sig b store).2 =
      if sig.ok = false then store
      else if isFalsyStr b.pickupId then store
      else (condUpdate store (idReqCond (b.pickupId.getD ""))
              (acceptRow (orNull b.assignedVendorRef) (orNull b.assignmentExpiresAt))).1 := by
  unfold acceptHandler
  by_cases h1 : sig.ok = false
  · simp [h1]
  · by_cases h2 : isFalsyStr b.pickupId = true
    · simp [h1, h2]
    · simp [h1, h2]

theorem acceptedHandler_snd (sig : SigResult) (b : AcceptBody) (store : Store) :
    (acceptedHandler sig b store).2 =
      if sig.ok = false then store
      else if isFalsyStr b.pickupId then store
      else (confirmVendorAcceptance store (b.pickupId.getD "") b.assignedVendorRef).1 := by
  unfold acceptedHandler
  by_cases h1 : sig.ok = false
  · simp [h1]
  · by_cases h2 : isFalsyStr b.pickupId = true
    · simp [h1, h2]
    · simp [h1, h2]

theorem applyOp_eq_map (store : Store) (op : EngineOp) :
    ∃ g, Tame g ∧ applyOp store op = store.map g := by
  cases op with
  | acceptCall sig b =>
    rw [show applyOp store (EngineOp.acceptCall sig b) = (acceptHandler sig b store).2 from rfl,
        acceptHandler_snd]
    by_cases h1 : sig.ok = false
    · exact ⟨fun p => p, tame_id, by simp [h1]⟩
    · by_cases h2 : isFalsyStr b.pickupId = true
      · exact ⟨fun p => p, tame_id, by simp [h1, h2]⟩
      · refine ⟨updateFn (idReqCond (b.pickupId.getD ""))
          (acceptRow (orNull b.assignedVendorRef) (orNull b.assignmentExpiresAt)), ?_, ?_⟩
        · exact tame_updateFn _ _ (fun p => rfl)
            (fun p hp => idReqCond_accepted _ p hp)
        · simp [h1, h2, condUpdate]
  | acceptedCall sig b =>
    rw [show applyOp store (EngineOp.acceptedCall sig b) = (acceptedHandler sig b store).2 from
          rfl,
        acceptedHandler_snd]
    by_cases h1 : sig.ok = false
    · exact ⟨fun p => p, tame_id, by simp [h1]⟩
    · by_cases h2 : isFalsyStr b.pickupId = true
      · exact ⟨fun p => p, tame_id, by simp [h1, h2]⟩
      · refine ⟨updateFn (confirmCond (b.pickupId.getD "") b.assignedVendorRef)
          (fun p => { p with status := Status.ACCEPTED }), ?_, ?_⟩
        · exact tame_updateFn _ _ (fun p => rfl)
            (fun p hp => confirmCond_accepted _ _ p hp)
        · simp [h1, h2, confirmVendorAcceptance, condUpdate]
  | rejectCall pid vr =>
    refine ⟨updateFn (rejectCond pid vr) clearAssignment, ?_, rfl⟩
    exact tame_updateFn _ _ (fun p => rfl) (fun p hp => rejectCond_accepted _ _ p hp)
  | expireCall pid vr =>
    refine ⟨updateFn (rejectCond pid vr) clearAssignment, ?_, rfl⟩
    exact tame_updateFn _ _ (fun p => rfl) (fun p hp => rejectCond_accepted _ _ p hp)
  | offerCall pid vr e =>
    refine ⟨updateFn (idReqCond pid)
      (fun p => { p with status := Status.OFFERED, assignedVendorRef := some vr,
                         assignmentExpiresAt := some e }), ?_, rfl⟩
    exact tame_updateFn _ _ (fun p => rfl) (fun p hp => idReqCond_accepted _ p hp)

theorem applyOps_eq_map (ops : List EngineOp) :
    ∀ store : Store, ∃ g, Tame g ∧ applyOps store ops = store.map g := by
  induction ops with
  | nil =>
    intro store
    exact ⟨fun p => p, tame_id, by simp [applyOps]⟩
  | cons op rest ih =>
    intro store
    rcases applyOp_eq_map store op with ⟨g1, hg1, e1⟩
    rcases ih (applyOp store op) with ⟨g2, hg2, e2⟩
    refine ⟨fun p => g2 (g1 p), tame_comp hg1 hg2, ?_⟩
    have estep : applyOps store (op :: rest) = applyOps (applyOp store op) rest := rfl
    rw [estep, e2, e1, List.map_map]
    rfl

/-! ### Handler analysis lemmas -/

theorem map_eq_singleton {l : List Pickup} {f : Pickup → Pickup} {x : Pickup}
    (h : l.map f = [x]) : ∃ a, l = [a] ∧ x = f a := by
  cases l with
  | nil => cases h
  | cons a t =>
    cases t with
    | nil =>
      refine ⟨a, rfl, ?_⟩
      simpa using h.symm
    | cons b r => simp at h

theorem maybeSingle_ok_some {l : List Pickup} {p : Pickup}
    (h : maybeSingle l = Except.ok (some p)) : l = [p] := by
  match l with
  | [] => cases h
  | [a] =>
    have : a = p := by simpa [maybeSingle] using h
    rw [this]
  | a :: b :: t => cases h

/-- Success analysis of the `/accept` handler: a `success: true` response
means the signature passed, `pickupId` was truthy, exactly one row matched
the `(id, status = REQUESTED)` guard, and the response carries that row
rewritten by the caller-supplied update. -/
theorem acceptHandler_success {sig : SigResult} {b : AcceptBody} {store : Store}
    (h : (acceptHandler sig b store).1.success = true) :
    sig.ok = true ∧ isFalsyStr b.pickupId = false ∧
    ∃ p0, store.filter (idReqCond (b.pickupId.getD "")) = [p0] ∧
      (acceptHandler sig b store).1 =
        { status := 200, success := true, error := none,
          pickup := some (acceptRow (orNull b.assignedVendorRef)
            (orNull b.assignmentExpiresAt) p0) } ∧
      (acceptHandler sig b store).2 =
        store.map (updateFn (idReqCond (b.pickupId.getD ""))
          (acceptRow (orNull b.assignedVendorRef) (orNull b.assignmentExpiresAt))) := by
  by_cases h1 : sig.ok = false
  · simp [acceptHandler, h1] at h
  · by_cases h2 : isFalsyStr b.pickupId = true
    · simp [acceptHandler, h1, h2] at h
    · refine ⟨by simpa using h1, by simpa using h2, ?_⟩
      have hresp : (acceptHandler sig b store).1 =
          acceptRespOf (maybeSingle ((store.filter (idReqCond (b.pickupId.getD ""))).map
            (acceptRow (orNull b.assignedVendorRef) (orNull b.assignmentExpiresAt)))) := by
        simp [acceptHandler, h1, h2, condUpdate]
      have hsnd : (acceptHandler sig b store).2 =
          store.map (updateFn (idReqCond (b.pickupId.getD ""))
            (acceptRow (orNull b.assignedVendorRef) (orNull b.assignmentExpiresAt))) := by
        simp [acceptHandler, h1, h2, condUpdate]
      rw [hresp] at h
      cases hms : maybeSingle ((store.filter (idReqCond (b.pickupId.getD ""))).map
          (acceptRow (orNull b.assignedVendorRef) (orNull b.assignmentExpiresAt))) with
      | error m => rw [hms] at h; simp [acceptRespOf] at h
      | ok o =>
        cases o with
        | none => rw [hms] at h; simp [acceptRespOf] at h
        | some p =>
          have hl := maybeSingle_ok_some hms
          rcases map_eq_singleton hl with ⟨p0, hp0, hpe⟩
          refine ⟨p0, hp0, ?_, hsnd⟩
          rw [hresp, hms, hpe]
          rfl

/-- No-match analysis of the `/accept` handler: when no row satisfies the
`(id, status = REQUESTED)` guard, the handler answers 409 and the store is
returned unchanged. -/
theorem acceptHandler_no_match {sig : SigResult} {b : AcceptBody} {store : Store}
    {pid : String} (hsig : sig.ok = true) (hb : b.pickupId = some pid) (hne : pid ≠ "")
    (hnone : ∀ q ∈ store, idReqCond pid q = false) :
    acceptHandler sig b store = (conflict409, store) := by
  have h1 : ¬ sig.ok = false := by simp [hsig]
  have h2 : ¬ isFalsyStr b.pickupId = true := by
    simp [isFalsyStr, hb, hne]
  have hgd : b.pickupId.getD "" = pid := by simp [hb]
  have hcu := condUpdate_no_match store (idReqCond pid)
    (acceptRow (orNull b.assignedVendorRef) (orNull b.assignmentExpiresAt)) hnone
  simp [acceptHandler, h1, h2, hgd, hcu, maybeSingle, acceptRespOf, conflict409]

/-- No-match analysis of the spec-modelled `confirmVendorAcceptance`. -/
theorem confirm_no_match {store : Store} {pid : String} {vr : Option String}
    (hnone : ∀ q ∈ store, confirmCond pid vr q = false) :
    confirmVendorAcceptance store pid vr = (store, none) := by
  have hcu := condUpdate_no_match store (confirmCond pid vr)
    (fun p => { p with status := Status.ACCEPTED }) hnone
  simp [confirmVendorAcceptance, hcu]

/-- No-match analysis of the spec-modelled rejection. -/
theorem reject_no_match {store : Store} {pid vr : String}
    (hnone : ∀ q ∈ store, rejectCond pid vr q = false) :
    handleVendorRejection store pid vr = (store, false) := by
  have hcu := condUpdate_no_match store (rejectCond pid vr) clearAssignment hnone
  simp [handleVendorRejection, hcu]

/-- No-match analysis of the `/accepted` boundary. -/
theorem acceptedHandler_no_match {sig : SigResult} {b : AcceptBody} {store : Store}
    {pid : String} (hsig : sig.ok = true) (hb : b.pickupId = some pid) (hne : pid ≠ "")
    (hnone : ∀ q ∈ store, confirmCond pid b.assignedVendorRef q = false) :
    acceptedHandler sig b store = (confirmConflict409, store) := by
  have h1 : ¬ sig.ok = false := by simp [hsig]
  have h2 : ¬ isFalsyStr b.pickupId = true := by
    simp [isFalsyStr, hb, hne]
  have hgd : b.pickupId.getD "" = pid := by simp [hb]
  have hcf := confirm_no_match hnone
  simp [acceptedHandler, h1, h2, hgd, hcf, acceptedRespOf, confirmConflict409]

/-- A tame map keeps an `ACCEPTED` row readable unchanged. -/
theorem tame_getRow {l : Store} {g : Pickup → Pickup} {pid : String} {p : Pickup}
    (hg : Tame g) (h : getRow l pid = some p) (hp : p.status = Status.ACCEPTED) :
    getRow (l.map g) pid = some p := by
  rw [getRow_map l g hg.1 pid, h]
  simp [hg.2 p hp]

theorem updateFn_id (cond : Pickup → Bool) (f : Pickup → Pickup)
    (hf : ∀ p, (f p).id = p.id) : ∀ p, (updateFn cond f p).id = p.id := by
  intro p
  unfold updateFn
  by_cases h : cond p = true
  · simp [h, hf p]
  · simp [h]

theorem filter_idReqCond_none {l : Store} {pid : String} (h : getRow l pid = none) :
    l.filter (idReqCond pid) = [] := by
  have h2 := filter_by_id_none (fun q => q.status == Status.REQUESTED) h
  exact h2

theorem filter_idReqCond_some {l : Store} {pid : String} {p : Pickup} (hu : uniqueIds l)
    (h : getRow l pid = some p) :
    l.filter (idReqCond pid) = if p.status = Status.REQUESTED then [p] else [] := by
  have h2 := filter_by_id_some (fun q => q.status == Status.REQUESTED) hu h
  have he : l.filter (idReqCond pid) =
      l.filter (fun q => q.id == pid && (fun r => r.status == Status.REQUESTED) q) := rfl
  rw [he, h2]
  by_cases hP : p.status = Status.REQUESTED
  · simp [hP]
  · simp [hP]

/-- Success path of the `/accept` handler: a unique `REQUESTED` row with
the requested id makes the conditional update hit exactly that row. -/
theorem acceptHandler_hit {sig : SigResult} {b : AcceptBody} {store : Store} {pid : String}
    {p : Pickup} (hu : uniqueIds store) (hsig : sig.ok = true) (hb : b.pickupId = some pid)
    (hne : pid ≠ "") (hrow : getRow store pid = some p)
    (hreq : p.status = Status.REQUESTED) :
    acceptHandler sig b store =
      ({ status := 200, success := true, error := none,
         pickup := some (acceptRow (orNull b.assignedVendorRef)
           (orNull b.assignmentExpiresAt) p) },
       store.map (updateFn (idReqCond pid)
         (acceptRow (orNull b.assignedVendorRef) (orNull b.assignmentExpiresAt)))) := by
  have h1 : ¬ sig.ok = false := by simp [hsig]
  have h2 : ¬ isFalsyStr b.pickupId = true := by simp [isFalsyStr, hb, hne]
  have hgd : b.pickupId.getD "" = pid := by simp [hb]
  have hf := filter_idReqCond_some hu hrow
  rw [if_pos hreq] at hf
  simp [acceptHandler, h1, h2, hgd, condUpdate, hf, maybeSingle, acceptRespOf]

/-- Reading back the accepted row after a successful conditional accept. -/
theorem getRow_after_accept {store : Store} {pid : String} {p : Pickup}
    (vr er : Option String) (hrow : getRow store pid = some p)
    (hid : p.id = pid) (hreq : p.status = Status.REQUESTED) :
    getRow (store.map (updateFn (idReqCond pid) (acceptRow vr er))) pid =
      some (acceptRow vr er p) := by
  rw [getRow_map store _ (updateFn_id (idReqCond pid) (acceptRow vr er) (fun q => rfl)) pid,
      hrow]
  have hcond : idReqCond pid p = true := by simp [idReqCond, hid, hreq]
  simp [updateFn, hcond]

theorem confirm_none_all {store : Store} {pid : String} {vr : Option String}
    (h : (confirmVendorAcceptance store pid vr).2 = none) :
    ∀ q ∈ store, confirmCond pid vr q = false := by
  have h2 : ((store.filter (confirmCond pid vr)).map
      (fun p => { p with status := Status.ACCEPTED })).head? = none := h
  have h3 : (store.filter (confirmCond pid vr)).map
      (fun p => { p with status := Status.ACCEPTED }) = [] :=
    List.head?_eq_none_iff.mp h2
  have h4 : store.filter (confirmCond pid vr) = [] := List.map_eq_nil_iff.mp h3
  intro q hq
  have := List.filter_eq_nil_iff.mp h4 q hq
  simpa using this

/-! ### Claim C4 -/

/-- Claim C4: for every pickup whose status is `CANCELLED`, an accept
request for that pickup returns the 409 conflict/no-match outcome and
leaves the pickup's state (including its `CANCELLED` status and
`cancelled_at`, since the store is returned verbatim) unchanged. -/
theorem C4_accept_on_cancelled_is_conflict
    (sig : SigResult) (b : AcceptBody) (store : Store) (pid : String)
    (hsig : sig.ok = true) (hb : b.pickupId = some pid) (hne : pid ≠ "")
    (hc : ∀ q ∈ store, q.id = pid → q.status = Status.CANCELLED) :
    acceptHandler sig b store = (conflict409, store) := by
  apply acceptHandler_no_match hsig hb hne
  intro q hq
  unfold idReqCond
  by_cases hid : (q.id == pid) = true
  · have hs := hc q hq (by simpa using hid)
    simp [hid, hs]
  · simp [hid]

theorem C4_witness :
    acceptHandler okSig bodyVendorB [pCancelled] = (conflict409, [pCancelled]) :=
  C4_accept_on_cancelled_is_conflict okSig bodyVendorB [pCancelled] "p1" rfl rfl
    (by decide) (by decide)

/-! ### Claim C5 -/

/-- Claim C5: a conditional acceptance update that affects zero rows is the
sentinel no-match outcome mapped to a 409 conflict, not an error: the
`/accept` boundary answers 409 with the store unchanged whenever no row
matches the `(id, REQUESTED)` guard; the `/accepted` boundary answers 409
with the store unchanged whenever `confirmVendorAcceptance` returns its
`none` sentinel (which also leaves the store untouched); and the
`/accepted` boundary never reaches the 500 error path (the confirm
operation is total and never throws on the no-match path). -/
theorem C5_no_match_is_conflict_not_error
    (sig : SigResult) (b : AcceptBody) (store : Store) (pid : String)
    (hsig : sig.ok = true) (hb : b.pickupId = some pid) (hne : pid ≠ "") :
    ((∀ q ∈ store, ¬(q.id = pid ∧ q.status = Status.REQUESTED)) →
        acceptHandler sig b store = (conflict409, store)) ∧
    ((confirmVendorAcceptance store pid b.assignedVendorRef).2 = none →
        acceptedHandler sig b store = (confirmConflict409, store)) ∧
    (∀ st2 pid2 vr2, (confirmVendorAcceptance st2 pid2 vr2).2 = none →
        (confirmVendorAcceptance st2 pid2 vr2).1 = st2) ∧
    (∀ sig2 b2 st2, (acceptedHandler sig2 b2 st2).1.status ≠ 500) := by
  refine ⟨?_, ?_, ?_, ?_⟩
  · intro hno
    apply acceptHandler_no_match hsig hb hne
    intro q hq
    unfold idReqCond
    by_cases hid : (q.id == pid) = true
    · have hne2 : ¬ q.status = Status.REQUESTED := fun hs =>
        hno q hq ⟨by simpa using hid, hs⟩
      simp [hid, hne2]
    · simp [hid]
  · intro hnone
    exact acceptedHandler_no_match hsig hb hne (confirm_none_all hnone)
  · intro st2 pid2 vr2 hnone
    have hall := confirm_none_all hnone
    have hcu := condUpdate_no_match st2 (confirmCond pid2 vr2)
      (fun p => { p with status := Status.ACCEPTED }) hall
    simp [confirmVendorAcceptance, hcu]
  · intro sig2 b2 st2
    by_cases h1 : sig2.ok = false
    · simp [acceptedHandler, h1]
    · by_cases h2 : isFalsyStr b2.pickupId = true
      · simp [acceptedHandler, h1, h2]
      · have : (acceptedHandler sig2 b2 st2).1 = acceptedRespOf
            (confirmVendorAcceptance st2 (b2.pickupId.getD "") b2.assignedVendorRef).2 := by
          simp [acceptedHandler, h1, h2]
        rw [this]
        cases (confirmVendorAcceptance st2 (b2.pickupId.getD "") b2.assignedVendorRef).2 with
        | none => simp [acceptedRespOf]
        | some p => simp [acceptedRespOf]

theorem C5_witness :
    acceptedHandler okSig bodyVendorA [pReq0] = (confirmConflict409, [pReq0]) :=
  (C5_no_match_is_conflict_not_error okSig bodyVendorA [pReq0] "p1" rfl rfl
    (by decide)).2.1 rfl

/-! ### Claim C6 -/

/-- Claim C6: on the vendor-facing endpoints, signature verification runs
before any business logic: a rejected verification makes both boundary
handlers answer 401 with `{success:false, error}` while performing no store
read or write — the responses are computed for every store alike and the
store is returned verbatim.  The spec-modelled verifier rejects a missing
signature, a missing/unparsable timestamp, a timestamp outside the
freshness window, and a digest mismatch, regardless of payload. -/
theorem C6_signature_verified_before_business_logic
    (sig : SigResult) (hfail : sig.ok = false) :
    (∀ b store, acceptHandler sig b store =
        ({ status := 401, success := false, error := sig.error, pickup := none }, store)) ∧
    (∀ b store, acceptedHandler sig b store =
        ({ status := 401, success := false, error := sig.error, pickup := none }, store)) ∧
    (∀ mac secret now w ts rb,
        (verifyVendorSignature mac secret now w none ts rb).ok = false) ∧
    (∀ mac secret now w s rb,
        (verifyVendorSignature mac secret now w (some s) none rb).ok = false) ∧
    (∀ mac secret now w s t rb, w < (now - t).natAbs →
        (verifyVendorSignature mac secret now w (some s) (some t) rb).ok = false) ∧
    (∀ mac secret now w s t rb, s ≠ mac secret (toString t ++ "." ++ rb) →
        (verifyVendorSignature mac secret now w (some s) (some t) rb).ok = false) := by
  refine ⟨?_, ?_, ?_, ?_, ?_, ?_⟩
  · intro b store
    simp [acceptHandler, hfail]
  · intro b store
    simp [acceptedHandler, hfail]
  · intro mac secret now w ts rb
    rfl
  · intro mac secret now w s rb
    rfl
  · intro mac secret now w s t rb hstale
    simp [verifyVendorSignature, hstale]
  · intro mac secret now w s t rb hmis
    unfold verifyVendorSignature
    by_cases hstale : w < (now - t).natAbs
    · simp [hstale]
    · have hbeq : (s == mac secret (toString t ++ "." ++ rb)) = false :=
        beq_eq_false_iff_ne.mpr hmis
      simp [hstale, hbeq]

theorem C6_witness :
    acceptHandler badSig bodyVendorA [pReqA] =
      ({ status := 401, success := false, error := some "invalid signature", pickup := none },
       [pReqA]) :=
  (C6_signature_verified_before_business_logic badSig rfl).1 bodyVendorA [pReqA]

/-! ### Claim C9 -/

/-- Claim C9: the public accept endpoint requires only `pickupId`: a
correctly signed accept request that omits the vendor reference entirely is
not rejected as bad input (never 400, never 401 over a well-keyed store);
it proceeds to the conditional update, and on the success path it stores
`null` as the pickup's `assigned_vendor_ref` while setting `ACCEPTED`. -/
theorem C9_accept_requires_only_pickupId
    (sig : SigResult) (b : AcceptBody) (store : Store) (pid : String)
    (hu : uniqueIds store) (hsig : sig.ok = true) (hb : b.pickupId = some pid)
    (hne : pid ≠ "") (hvr : b.assignedVendorRef = none) :
    (acceptHandler sig b store).1.status ≠ 400 ∧
    (acceptHandler sig b store).1.status ≠ 401 ∧
    (∀ p, getRow store pid = some p → p.status = Status.REQUESTED →
        (acceptHandler sig b store).1.success = true ∧
        ∃ q, getRow (acceptHandler sig b store).2 pid = some q ∧
          q.status = Status.ACCEPTED ∧ q.assignedVendorRef = none) := by
  cases hr : getRow store pid with
  | none =>
    have hcf : acceptHandler sig b store = (conflict409, store) := by
      apply acceptHandler_no_match hsig hb hne
      intro q hq
      simp [idReqCond, getRow_none hr q hq]
    refine ⟨by rw [hcf]; simp [conflict409], by rw [hcf]; simp [conflict409], ?_⟩
    intro p hrp
    cases hrp
  | some p =>
    by_cases hreq : p.status = Status.REQUESTED
    · have hhit := acceptHandler_hit hu hsig hb hne hr hreq
      refine ⟨by rw [hhit]; simp, by rw [hhit]; simp, ?_⟩
      intro p2 hrp2 hreq2
      have hp2 : p2 = p := Option.some.inj hrp2.symm
      subst hp2
      have hid : p2.id = pid := (getRow_mem hr).2
      constructor
      · rw [hhit]
      · refine ⟨acceptRow (orNull b.assignedVendorRef) (orNull b.assignmentExpiresAt) p2,
          ?_, rfl, ?_⟩
        · rw [hhit]
          exact getRow_after_accept _ _ hr hid hreq
        · show orNull b.assignedVendorRef = none
          rw [hvr]
          rfl
    · have hcf : acceptHandler sig b store = (conflict409, store) := by
        apply acceptHandler_no_match hsig hb hne
        intro q hq
        unfold idReqCond
        by_cases hid : (q.id == pid) = true
        · have hqp : q = p := getRow_unique hu hr hq (by simpa using hid)
          subst hqp
          simp [hid, hreq]
        · simp [hid]
      refine ⟨by rw [hcf]; simp [conflict409], by rw [hcf]; simp [conflict409], ?_⟩
      intro p2 hrp2 hreq2
      have hp2 : p2 = p := Option.some.inj hrp2.symm
      exact absurd (hp2 ▸ hreq2) hreq

theorem C9_witness :
    (acceptHandler okSig bodyNoVendor [pReq0]).1.status ≠ 400 ∧
    (acceptHandler okSig bodyNoVendor [pReq0]).1.success = true ∧
    (∃ q, getRow (acceptHandler okSig bodyNoVendor [pReq0]).2 "p1" = some q ∧
        q.status = Status.ACCEPTED ∧ q.assignedVendorRef = none) := by
  have h := C9_accept_requires_only_pickupId okSig bodyNoVendor [pReq0] "p1"
    (by decide) rfl rfl (by decide) rfl
  rcases h.2.2 pReq0 rfl rfl with ⟨hsucc, hq⟩
  exact ⟨h.1, hsucc, hq⟩

/-! ### Claim C2 -/

/-- Claim C2 counterexample: the `/accept` conditional update does not
match on vendor identity.  A `REQUESTED` pickup currently assigned to
vendor A is accepted by a request carrying vendor B's reference: the call
succeeds and the stored row becomes `ACCEPTED` with `assigned_vendor_ref`
overwritten to vendor B — refuting "an accept request carrying a vendorRef
different from the pickup's current assignedVendorRef never transitions
the pickup to ACCEPTED". -/
theorem C2_counterexample_vendor_identity_not_checked :
    pReqA.assignedVendorRef = some "vendor-A" ∧
    bodyVendorB.assignedVendorRef = some "vendor-B" ∧
    (acceptHandler okSig bodyVendorB [pReqA]).1.success = true ∧
    getRow (acceptHandler okSig bodyVendorB [pReqA]).2 "p1" =
      some { id := "p1", status := Status.ACCEPTED, assignedVendorRef := some "vendor-B",
             assignmentExpiresAt := some "2025-06-01T11:00:00Z", cancelledAt := none } := by
  decide

/-- Claim C2 amended: the vendor-acceptance operation at `POST
/api/vendor/accept` is a single conditional update that sets `ACCEPTED`
keyed only on the pickup's current status being `REQUESTED`; vendor
identity is not consulted — over a well-keyed store a signed accept with a
truthy `pickupId` succeeds exactly when the pickup's row is `REQUESTED`,
irrespective of `assignedVendorRef`, and the caller-supplied vendor ref
(`x || null`) is written over whatever reference was stored. -/
theorem C2_amended_guard_is_status_only
    (sig : SigResult) (b : AcceptBody) (store : Store) (pid : String)
    (hu : uniqueIds store) (hsig : sig.ok = true) (hb : b.pickupId = some pid)
    (hne : pid ≠ "") :
    ((acceptHandler sig b store).1.success = true ↔
       ∃ p, getRow store pid = some p ∧ p.status = Status.REQUESTED) ∧
    (∀ p, getRow store pid = some p → p.status = Status.REQUESTED →
       getRow (acceptHandler sig b store).2 pid =
         some (acceptRow (orNull b.assignedVendorRef) (orNull b.assignmentExpiresAt) p)) := by
  constructor
  · constructor
    · intro h
      rcases acceptHandler_success h with ⟨_, _, p0, hfilt, _, _⟩
      have hgd : b.pickupId.getD "" = pid := by simp [hb]
      rw [hgd] at hfilt
      have hp0 : p0 ∈ store.filter (idReqCond pid) := by
        rw [hfilt]
        exact List.mem_cons_self p0 []
      have hmem := List.mem_filter.mp hp0
      have hcond := hmem.2
      unfold idReqCond at hcond
      have hid : p0.id = pid := by
        have := (Bool.and_eq_true _ _).mp hcond
        simpa using this.1
      have hreq : p0.status = Status.REQUESTED := by
        have := (Bool.and_eq_true _ _).mp hcond
        simpa using this.2
      exact ⟨p0, getRow_eq_some hu hmem.1 hid, hreq⟩
    · intro ⟨p, hr, hreq⟩
      rw [acceptHandler_hit hu hsig hb hne hr hreq]
  · intro p hr hreq
    rw [acceptHandler_hit hu hsig hb hne hr hreq]
    exact getRow_after_accept _ _ hr (getRow_mem hr).2 hreq

theorem C2_witness :
    ((acceptHandler okSig bodyVendorB [pReqA]).1.success = true ↔
       ∃ p, getRow [pReqA] "p1" = some p ∧ p.status = Status.REQUESTED) ∧
    getRow (acceptHandler okSig bodyVendorB [pReqA]).2 "p1" =
      some (acceptRow (some "vendor-B") (some "2025-06-01T11:00:00Z") pReqA) := by
  have h := C2_amended_guard_is_status_only okSig bodyVendorB [pReqA] "p1"
    (by decide) rfl rfl (by decide)
  exact ⟨h.1, h.2 pReqA rfl rfl⟩

/-! ### Claim C3 -/

/-- Claim C3 counterexample: a successful accept can produce an `ACCEPTED`
pickup whose `assigned_vendor_ref` is null while `assignment_expires_at`
is set — both fields come from the caller.  Starting from an
invariant-respecting `REQUESTED` row, the accept body that omits the
vendor reference but carries an expiry yields a row violating the
both-null-or-both-set invariant. -/
theorem C3_counterexample_invariant_broken_by_accept :
    invariantOK pReq0 ∧
    (acceptHandler okSig bodyNoVendor [pReq0]).1.success = true ∧
    getRow (acceptHandler okSig bodyNoVendor [pReq0]).2 "p1" =
      some { id := "p1", status := Status.ACCEPTED, assignedVendorRef := none,
             assignmentExpiresAt := some "2025-06-01T12:00:00Z", cancelledAt := none } ∧
    ¬ invariantOK { id := "p1", status := Status.ACCEPTED, assignedVendorRef := none,
                    assignmentExpiresAt := some "2025-06-01T12:00:00Z",
                    cancelledAt := none } := by
  decide

/-- Membership in the updated table of a conditional update: a row comes
from a matched original row rewritten by the update, or from an unmatched
original row verbatim. -/
theorem mem_condUpdate {store : Store} {cond : Pickup → Bool} {f : Pickup → Pickup}
    {q : Pickup} (hq : q ∈ (condUpdate store cond f).1) :
    ∃ p, p ∈ store ∧ ((cond p = true ∧ q = f p) ∨ (cond p = false ∧ q = p)) := by
  rcases List.mem_map.mp hq with ⟨p, hp, he⟩
  refine ⟨p, hp, ?_⟩
  by_cases hc : cond p = true
  · left
    refine ⟨hc, ?_⟩
    rw [← he]
    simp [updateFn, hc]
  · right
    refine ⟨by simpa using hc, ?_⟩
    rw [← he]
    simp [updateFn, hc]

/-- Claim C3 amended: the spec-modelled offer, rejection, expiry and
confirm operations all preserve the both-null-or-both-set invariant, but
the `/accept` boundary writes the caller-supplied pair verbatim into the
row it transitions: every row of its output store is either an original
row or an `ACCEPTED` row whose `assignedVendorRef`/`assignmentExpiresAt`
equal the caller's (`x || null`) values — so the accept operation preserves
the invariant only when the caller supplies both fields or neither, and in
particular it can produce an `ACCEPTED` row with a null vendor ref and a
set expiry. -/
theorem C3_amended_invariant_preserved_except_caller_written_accept :
    (∀ store pid vr e, (∀ p ∈ store, invariantOK p) →
        ∀ q ∈ (offerTransition store pid vr e).1, invariantOK q) ∧
    (∀ store pid vr, (∀ p ∈ store, invariantOK p) →
        ∀ q ∈ (handleVendorRejection store pid vr).1, invariantOK q) ∧
    (∀ store pid vr, (∀ p ∈ store, invariantOK p) →
        ∀ q ∈ (expiryFire store pid vr).1, invariantOK q) ∧
    (∀ store pid vr, (∀ p ∈ store, invariantOK p) →
        ∀ q ∈ (confirmVendorAcceptance store pid vr).1, invariantOK q) ∧
    (∀ sig b store q, q ∈ (acceptHandler sig b store).2 → q ∈ store ∨
        (q.status = Status.ACCEPTED ∧
         q.assignedVendorRef = orNull b.assignedVendorRef ∧
         q.assignmentExpiresAt = orNull b.assignmentExpiresAt)) ∧
    (∀ sig b store,
        ((orNull b.assignedVendorRef = none ∧ orNull b.assignmentExpiresAt = none) ∨
         (orNull b.assignedVendorRef ≠ none ∧ orNull b.assignmentExpiresAt ≠ none)) →
        (∀ p ∈ store, invariantOK p) →
        ∀ q ∈ (acceptHandler sig b store).2, invariantOK q) := by
  have haccept : ∀ (sig : SigResult) (b : AcceptBody) (store : Store) (q : Pickup),
      q ∈ (acceptHandler sig b store).2 → q ∈ store ∨
        (q.status = Status.ACCEPTED ∧
         q.assignedVendorRef = orNull b.assignedVendorRef ∧
         q.assignmentExpiresAt = orNull b.assignmentExpiresAt) := by
    intro sig b store q hq
    rw [acceptHandler_snd] at hq
    by_cases h1 : sig.ok = false
    · rw [if_pos h1] at hq
      exact Or.inl hq
    · rw [if_neg h1] at hq
      by_cases h2 : isFalsyStr b.pickupId = true
      · rw [if_pos h2] at hq
        exact Or.inl hq
      · rw [if_neg h2] at hq
        rcases mem_condUpdate hq with ⟨p, hp, hcase⟩
        rcases hcase with ⟨_, he⟩ | ⟨_, he⟩
        · right
          rw [he]
          exact ⟨rfl, rfl, rfl⟩
        · left
          rw [he]
          exact hp
  refine ⟨?_, ?_, ?_, ?_, haccept, ?_⟩
  · intro store pid vr e hinv q hq
    rcases mem_condUpdate hq with ⟨p, hp, hcase⟩
    rcases hcase with ⟨_, he⟩ | ⟨_, he⟩
    · rw [he]
      right
      left
      exact ⟨by simp, by simp⟩
    · rw [he]
      exact hinv p hp
  · intro store pid vr hinv q hq
    rcases mem_condUpdate hq with ⟨p, hp, hcase⟩
    rcases hcase with ⟨_, he⟩ | ⟨_, he⟩
    · rw [he]
      left
      exact ⟨rfl, rfl⟩
    · rw [he]
      exact hinv p hp
  · intro store pid vr hinv q hq
    rcases mem_condUpdate hq with ⟨p, hp, hcase⟩
    rcases hcase with ⟨_, he⟩ | ⟨_, he⟩
    · rw [he]
      left
      exact ⟨rfl, rfl⟩
    · rw [he]
      exact hinv p hp
  · intro store pid vr hinv q hq
    rcases mem_condUpdate hq with ⟨p, hp, hcase⟩
    rcases hcase with ⟨_, he⟩ | ⟨_, he⟩
    · rcases hinv p hp with hb | hb | hb
      · rw [he]
        left
        exact ⟨hb.1, hb.2⟩
      · rw [he]
        right
        left
        exact ⟨hb.1, hb.2⟩
      · rw [he]
        right
        right
        exact ⟨Or.inl rfl, hb.2⟩
    · rw [he]
      exact hinv p hp
  · intro sig b store hpair hinv q hq
    rcases haccept sig b store q hq with hmem | ⟨hst, hvr, hex⟩
    · exact hinv q hmem
    · rcases hpair with ⟨h1, h2⟩ | ⟨h1, h2⟩
      · left
        rw [hvr, hex]
        exact ⟨h1, h2⟩
      · right
        left
        rw [hvr, hex]
        exact ⟨h1, h2⟩

theorem C3_witness :
    invariantOK { id := "p1", status := Status.OFFERED,
                  assignedVendorRef := some "vendor-A",
                  assignmentExpiresAt := some "2025-06-01T10:00:00Z",
                  cancelledAt := none } :=
  (C3_amended_invariant_preserved_except_caller_written_accept).1
    [pReq0] "p1" "vendor-A" "2025-06-01T10:00:00Z" (by decide) _ (by decide)

/-! ### Claim C7 -/

theorem jsToString_jstr (s : String) : jsToString (JsVal.jstr s) = s := rfl

theorem validate_none_iff (b : CreateBody) :
    validatePickupBody (some b) = none ↔
      ((!(isArrayV b.items) || arrLen b.items == 0) = false ∧
       (!(truthy b.address) || jsTrim (jsToString b.address) == "") = false ∧
       (!(truthy b.timeSlot) || jsTrim (jsToString b.timeSlot) == "") = false ∧
       (!(isJNull b.latitude) && !(isNumber b.latitude)) = false ∧
       (!(isJNull b.longitude) && !(isNumber b.longitude)) = false) := by
  unfold validatePickupBody
  by_cases h1 : (!(isArrayV b.items) || arrLen b.items == 0) = true
  · simp [h1]
  · by_cases h2 : (!(truthy b.address) || jsTrim (jsToString b.address) == "") = true
    · simp [h1, h2]
    · by_cases h3 : (!(truthy b.timeSlot) || jsTrim (jsToString b.timeSlot) == "") = true
      · simp [h1, h2, h3]
      · by_cases h4 : (!(isJNull b.latitude) && !(isNumber b.latitude)) = true
        · simp [h1, h2, h3, h4]
        · by_cases h5 : (!(isJNull b.longitude) && !(isNumber b.longitude)) = true
          · simp [h1, h2, h3, h4, h5]
          · simp [h1, h2, h3, h4, h5]

/-- Claim C7: a pickup-creation request whose body is missing, has a
missing/non-array/empty `items`, a blank `address`, a blank `timeSlot`, or
a non-numeric latitude/longitude fails validation, and on every validation
failure both creation handlers answer 400 `{success:false, error}` having
performed no store operation and no dispatch. -/
theorem C7_validation_rejects_before_any_store_operation :
    (∀ body jwt ck rpc e, validatePickupBody body = some e →
        createHandlerP body jwt ck rpc = ⟨⟨400, false, some e, none⟩, false, []⟩ ∧
        createHandlerV body jwt ck rpc = ⟨⟨400, false, some e, none⟩, false, []⟩) ∧
    (validatePickupBody none).isSome = true ∧
    (∀ b, isArrayV b.items = false → (validatePickupBody (some b)).isSome = true) ∧
    (∀ b, b.items = JsVal.jarr [] → (validatePickupBody (some b)).isSome = true) ∧
    (∀ b s, b.address = JsVal.jstr s → jsTrim s = "" →
        (validatePickupBody (some b)).isSome = true) ∧
    (∀ b s, b.timeSlot = JsVal.jstr s → jsTrim s = "" →
        (validatePickupBody (some b)).isSome = true) ∧
    (∀ b, isJNull b.latitude = false → isNumber b.latitude = false →
        (validatePickupBody (some b)).isSome = true) ∧
    (∀ b, isJNull b.longitude = false → isNumber b.longitude = false →
        (validatePickupBody (some b)).isSome = true) := by
  have hgen : ∀ (b : CreateBody),
      ¬(((!(isArrayV b.items) || arrLen b.items == 0) = false ∧
         (!(truthy b.address) || jsTrim (jsToString b.address) == "") = false ∧
         (!(truthy b.timeSlot) || jsTrim (jsToString b.timeSlot) == "") = false ∧
         (!(isJNull b.latitude) && !(isNumber b.latitude)) = false ∧
         (!(isJNull b.longitude) && !(isNumber b.longitude)) = false)) →
      (validatePickupBody (some b)).isSome = true := by
    intro b hnot
    cases hv : validatePickupBody (some b) with
    | some e => rfl
    | none => exact absurd ((validate_none_iff b).mp hv) hnot
  refine ⟨?_, rfl, ?_, ?_, ?_, ?_, ?_, ?_⟩
  · intro body jwt ck rpc e h
    constructor
    · simp [createHandlerP, h]
    · simp [createHandlerV, h]
  · intro b h
    exact hgen b (fun hall => by simp [h] at hall)
  · intro b h
    exact hgen b (fun hall => by simp [h, isArrayV, arrLen] at hall)
  · intro b s h hs
    exact hgen b (fun hall => by simp [h, hs, truthy, jsToString_jstr] at hall)
  · intro b s h hs
    exact hgen b (fun hall => by simp [h, hs, truthy, jsToString_jstr] at hall)
  · intro b h1 h2
    exact hgen b (fun hall => by simp [h1, h2] at hall)
  · intro b h1 h2
    exact hgen b (fun hall => by simp [h1, h2] at hall)

theorem C7_witness :
    createHandlerP (some badItemsBody) none true (RpcOutcome.ok none) =
      ⟨⟨400, false,
        some "items is required (array of \x7b scrapTypeId, estimatedQuantity \x7d).",
        none⟩, false, []⟩ ∧
    (validatePickupBody none).isSome = true :=
  ⟨((C7_validation_rejects_before_any_store_operation).1 (some badItemsBody) none true
      (RpcOutcome.ok none)
      "items is required (array of \x7b scrapTypeId, estimatedQuantity \x7d)." rfl).1,
   (C7_validation_rejects_before_any_store_operation).2.1⟩

/-! ### Claim C10 -/

/-- Claim C10: on the pickup-creation endpoint, body validation runs
before bearer-token authentication — a malformed body with no token gets
400 rather than 401, and 401 arises exactly for valid bodies with no
token. -/
theorem C10_validation_evaluated_before_bearer_token :
    (∀ body ck rpc e, validatePickupBody body = some e →
        (createHandlerP body none ck rpc).resp.status = 400) ∧
    (∀ body jwt ck rpc, (createHandlerP body jwt ck rpc).resp.status = 401 →
        validatePickupBody body = none ∧ jwt = none) ∧
    (∀ body ck rpc, validatePickupBody body = none →
        (createHandlerP body none ck rpc).resp.status = 401) := by
  refine ⟨?_, ?_, ?_⟩
  · intro body ck rpc e h
    simp [createHandlerP, h]
  · intro body jwt ck rpc h
    cases hv : validatePickupBody body with
    | some e => simp [createHandlerP, hv] at h
    | none =>
      cases jwt with
      | none => exact ⟨rfl, rfl⟩
      | some t =>
        exfalso
        by_cases hck : ck = false
        · simp [createHandlerP, hv, hck] at h
        · cases rpc with
          | err m =>
            by_cases hm : missingRpcMsg (rpcErrMsg m) = true
            · simp [createHandlerP, hv, hck, hm] at h
            · simp [createHandlerP, hv, hck, hm] at h
          | ok d => simp [createHandlerP, hv, hck] at h
  · intro body ck rpc h
    simp [createHandlerP, h]

theorem C10_witness :
    (createHandlerP none none true (RpcOutcome.ok none)).resp.status = 400 ∧
    (createHandlerP (some goodBody) none true (RpcOutcome.ok none)).resp.status = 401 :=
  ⟨(C10_validation_evaluated_before_bearer_token).1 none true (RpcOutcome.ok none)
      "Request body is missing." rfl,
   (C10_validation_evaluated_before_bearer_token).2.2 (some goodBody) true
      (RpcOutcome.ok none) rfl⟩

/-! ### Claim C8 -/

/-- Claim C8 counterexample: the creation handler of
`src/unnamed/part_001` (`backend/routes/pickups.js`) persists the pickup
and answers 201 without ever invoking `dispatcher.dispatchPickup` — a
successful creation with zero dispatch invocations, refuting "every
successful creation triggers exactly one dispatch invocation". -/
theorem C8_counterexample_creation_without_dispatch :
    (createHandlerP (some goodBody) (some "token-1") true
        (RpcOutcome.ok (some "pickup-1"))).resp.status = 201 ∧
    (createHandlerP (some goodBody) (some "token-1") true
        (RpcOutcome.ok (some "pickup-1"))).resp.success = true ∧
    (createHandlerP (some goodBody) (some "token-1") true
        (RpcOutcome.ok (some "pickup-1"))).dispatchCalls = [] :=
  ⟨rfl, rfl, rfl⟩

/-- Claim C8 amended: only the pickups-router variant embedded in
`src/routes/vendor.js` dispatches: when its creation succeeds (201) with a
truthy pickup id it invokes `dispatchPickup` exactly once with that id,
and its HTTP response coincides with the dispatch-free handler's response
on all inputs (the response is computed without any dispatch outcome as
input — fire-and-forget); the `part_001` creation handler never invokes
`dispatchPickup` at all. -/
theorem C8_amended_dispatch_once_only_in_vendor_variant :
    (∀ body jwt ck pid, pid ≠ "" →
        (createHandlerV body jwt ck (RpcOutcome.ok (some pid))).resp.status = 201 →
        (createHandlerV body jwt ck (RpcOutcome.ok (some pid))).dispatchCalls = [pid]) ∧
    (∀ body jwt ck rpc,
        (createHandlerV body jwt ck rpc).resp = (createHandlerP body jwt ck rpc).resp) ∧
    (∀ body jwt ck rpc, (createHandlerP body jwt ck rpc).dispatchCalls = []) := by
  have hcases : ∀ (body : Option CreateBody) (jwt : Option String) (ck : Bool)
      (rpc : RpcOutcome),
      (createHandlerV body jwt ck rpc).resp = (createHandlerP body jwt ck rpc).resp ∧
      (createHandlerP body jwt ck rpc).dispatchCalls = [] := by
    intro body jwt ck rpc
    cases hv : validatePickupBody body with
    | some e => simp [createHandlerP, createHandlerV, hv]
    | none =>
      cases jwt with
      | none => simp [createHandlerP, createHandlerV, hv]
      | some t =>
        by_cases hck : ck = false
        · simp [createHandlerP, createHandlerV, hv, hck]
        · cases rpc with
          | err m =>
            by_cases hm : missingRpcMsg (rpcErrMsg m) = true
            · simp [createHandlerP, createHandlerV, hv, hck, hm]
            · simp [createHandlerP, createHandlerV, hv, hck, hm]
          | ok d => simp [createHandlerP, createHandlerV, hv, hck]
  refine ⟨?_, fun body jwt ck rpc => (hcases body jwt ck rpc).1,
    fun body jwt ck rpc => (hcases body jwt ck rpc).2⟩
  intro body jwt ck pid hne h201
  cases hv : validatePickupBody body with
  | some e => simp [createHandlerV, hv] at h201
  | none =>
    cases jwt with
    | none => simp [createHandlerV, hv] at h201
    | some t =>
      by_cases hck : ck = false
      · simp [createHandlerV, hv, hck] at h201
      · have hne2 : (pid == "") = false := beq_eq_false_iff_ne.mpr hne
        simp [createHandlerV, hv, hck, hne2]

theorem C8_witness :
    (createHandlerV (some goodBody) (some "token-1") true
        (RpcOutcome.ok (some "pickup-1"))).dispatchCalls = ["pickup-1"] :=
  (C8_amended_dispatch_once_only_in_vendor_variant).1 (some goodBody) (some "token-1") true
    "pickup-1" (by decide) rfl

/-! ### Claim C1 -/

/-- Claim C1: at most one accept attempt ever succeeds on a pickup.  After
one conditional `ACCEPTED` transition has been applied by the `/accept`
boundary (over a well-keyed store), (i) the pickup's row is `ACCEPTED`;
(ii) no later sequence of engine operations (accepts, confirms, rejects,
expiries, offers) ever changes that row again; (iii) every later signed
accept attempt on the same pickup answers the 409 no-match conflict and
leaves the store unchanged; (iv)/(v) every later rejection or expiry for it
is ignored ("false" indicator) with the store unchanged; and (vi) every
later `/accepted` confirm attempt answers the 409 no-match conflict with
the store unchanged. -/
theorem C1_at_most_one_accept_succeeds
    (sig : SigResult) (b : AcceptBody) (store : Store) (r : VendorResponse) (st1 : Store)
    (pid : String) (hu : uniqueIds store) (hb : b.pickupId = some pid)
    (hrun : acceptHandler sig b store = (r, st1)) (hok : r.success = true) :
    (∃ p, getRow st1 pid = some p ∧ p.status = Status.ACCEPTED) ∧
    (∀ ops, getRow (applyOps st1 ops) pid = getRow st1 pid) ∧
    (∀ ops sig2 b2, sig2.ok = true → b2.pickupId = some pid →
        acceptHandler sig2 b2 (applyOps st1 ops) = (conflict409, applyOps st1 ops)) ∧
    (∀ ops vr, handleVendorRejection (applyOps st1 ops) pid vr = (applyOps st1 ops, false)) ∧
    (∀ ops vr, expiryFire (applyOps st1 ops) pid vr = (applyOps st1 ops, false)) ∧
    (∀ ops sig2 b2, sig2.ok = true → b2.pickupId = some pid →
        acceptedHandler sig2 b2 (applyOps st1 ops) =
          (confirmConflict409, applyOps st1 ops)) := by
  have hs1 : (acceptHandler sig b store).2 = st1 := by rw [hrun]
  have hsucc : (acceptHandler sig b store).1.success = true := by rw [hrun]; exact hok
  rcases acceptHandler_success hsucc with ⟨hsig, hfal, p0, hfilt, hresp, hsnd⟩
  have hgd : b.pickupId.getD "" = pid := by simp [hb]
  rw [hgd] at hfilt hsnd
  have hne : pid ≠ "" := by
    intro he
    rw [hb, he] at hfal
    simp [isFalsyStr] at hfal
  have hp0f : p0 ∈ store.filter (idReqCond pid) := by
    rw [hfilt]
    exact List.mem_cons_self _ _
  have hmem := List.mem_filter.mp hp0f
  have hcond := hmem.2
  unfold idReqCond at hcond
  have hid : p0.id = pid := by
    have h := (Bool.and_eq_true _ _).mp hcond
    simpa using h.1
  have hreq0 : p0.status = Status.REQUESTED := by
    have h := (Bool.and_eq_true _ _).mp hcond
    simpa using h.2
  have hrow0 : getRow store pid = some p0 := getRow_eq_some hu hmem.1 hid
  have hst1 : st1 = store.map (updateFn (idReqCond pid)
      (acceptRow (orNull b.assignedVendorRef) (orNull b.assignmentExpiresAt))) := by
    rw [← hs1, hsnd]
  have hrow1 : getRow st1 pid =
      some (acceptRow (orNull b.assignedVendorRef) (orNull b.assignmentExpiresAt) p0) := by
    rw [hst1]
    exact getRow_after_accept _ _ hrow0 hid hreq0
  have hu1 : uniqueIds st1 := by
    rw [hst1]
    exact (uniqueIds_map store _ (updateFn_id (idReqCond pid)
      (acceptRow (orNull b.assignedVendorRef) (orNull b.assignmentExpiresAt))
      (fun q => rfl))).mpr hu
  have key : ∀ ops : List EngineOp,
      getRow (applyOps st1 ops) pid =
        some (acceptRow (orNull b.assignedVendorRef) (orNull b.assignmentExpiresAt) p0) ∧
      uniqueIds (applyOps st1 ops) := by
    intro ops
    rcases applyOps_eq_map ops st1 with ⟨g, hg, he⟩
    constructor
    · rw [he]
      exact tame_getRow hg hrow1 rfl
    · rw [he]
      exact (uniqueIds_map st1 g hg.1).mpr hu1
  have hnoneReq : ∀ ops, ∀ q ∈ applyOps st1 ops, idReqCond pid q = false := by
    intro ops q hq
    rcases key ops with ⟨hrow2, hu2⟩
    unfold idReqCond
    by_cases hqid : (q.id == pid) = true
    · have hqp := getRow_unique hu2 hrow2 hq (by simpa using hqid)
      subst hqp
      simp [acceptRow]
    · simp [hqid]
  have hnoneRej : ∀ ops vr, ∀ q ∈ applyOps st1 ops, rejectCond pid vr q = false := by
    intro ops vr q hq
    rcases key ops with ⟨hrow2, hu2⟩
    unfold rejectCond
    by_cases hqid : (q.id == pid) = true
    · have hqp := getRow_unique hu2 hrow2 hq (by simpa using hqid)
      subst hqp
      simp [acceptRow]
    · simp [hqid]
  have hnoneConf : ∀ ops vr2, ∀ q ∈ applyOps st1 ops, confirmCond pid vr2 q = false := by
    intro ops vr2 q hq
    rcases key ops with ⟨hrow2, hu2⟩
    unfold confirmCond
    by_cases hqid : (q.id == pid) = true
    · have hqp := getRow_unique hu2 hrow2 hq (by simpa using hqid)
      subst hqp
      simp [acceptRow]
    · simp [hqid]
  refine ⟨⟨acceptRow (orNull b.assignedVendorRef) (orNull b.assignmentExpiresAt) p0,
      hrow1, rfl⟩, ?_, ?_, ?_, ?_, ?_⟩
  · intro ops
    rw [(key ops).1, hrow1]
  · intro ops sig2 b2 hs2 hb2
    exact acceptHandler_no_match hs2 hb2 hne (hnoneReq ops)
  · intro ops vr
    exact reject_no_match (hnoneRej ops vr)
  · intro ops vr
    exact reject_no_match (hnoneRej ops vr)
  · intro ops sig2 b2 hs2 hb2
    exact acceptedHandler_no_match hs2 hb2 hne (hnoneConf ops b2.assignedVendorRef)

theorem C1_witness :
    acceptHandler okSig bodyVendorB
        (applyOps [pAccA] [EngineOp.offerCall "p1" "vendor-B" "2025-06-02T00:00:00Z"]) =
      (conflict409,
       applyOps [pAccA] [EngineOp.offerCall "p1" "vendor-B" "2025-06-02T00:00:00Z"]) :=
  (C1_at_most_one_accept_succeeds okSig bodyVendorA [pReq0]
      { status := 200, success := true, error := none, pickup := some pAccA } [pAccA] "p1"
      (by decide) rfl (by decide) rfl).2.2.1
    [EngineOp.offerCall "p1" "vendor-B" "2025-06-02T00:00:00Z"] okSig bodyVendorB rfl rfl

end ScrapCo
